import Mathlib

/-
Verification of the stat-construction, wire-encoding and fan-out logic of the
node-statsd client (src/lib/statsd.js), as a shallow embedding.

Modelling conventions:
- JS numbers are modelled as rationals; NaN and the floating-point grain are not
  modelled.  JS number-to-string conversion is modelled by toString on the rational.
- A possibly-absent argument is an Option; none stands for undefined.
- The single Math.random() draw made inside Client.prototype.send is passed to the
  model as an explicit extra argument.
- Asynchronous completion of the per-name datagram sends is modelled by the list of
  completion events in arrival order; the closure state of sendAll is threaded
  explicitly through that list.
-/

set_option autoImplicit false

namespace Statsd

/-- The tags argument as seen by the check at src/lib/statsd.js lines 193-196
(the test is written as: tags truthy, and Array.isArray(tags)).  A JS value is
either undefined, some non-array value (with its truthiness), or an array of
strings. -/
inductive TagsArg where
  | undef
  | nonArray (truthy : Bool)
  | arr (tags : List String)
deriving DecidableEq

/-- Tag segment appended at lines 193-196: an array (empty included) appends
the marker and the comma-join of its elements; undefined or a non-array value
appends nothing, because Array.isArray rejects it. -/
def tagsSegment : TagsArg → String
  | TagsArg.arr l => "|#" ++ String.intercalate "," l
  | _ => ""

/-- The message built at line 181: prefix + stat + suffix + colon + value +
bar + type, before any sampling annotation or tag segment. -/
def baseMessage (pfx stat sfx : String) (value : ℚ) (ty : String) : String :=
  pfx ++ stat ++ sfx ++ ":" ++ toString value ++ "|" ++ ty

/-- Sampling annotation as the code attaches it: the rate is appended exactly
when the guard at line 184 (sampleRate truthy, and sampleRate < 1) holds on the
emitting branch.  A rate of 0 is falsy in JS, so it contributes no annotation. -/
def sampleSegment : Option ℚ → String
  | some r => if r ≠ 0 ∧ r < 1 then "|@" ++ toString r else ""
  | none => ""

/-- One call to Client.prototype.send (src/lib/statsd.js lines 180-207), with
the Math.random() draw passed explicitly.  Returns the encoded wire message, or
none when the stat is dropped by the sampling check: the early return at line
189 exits before the tag segment, before the socket write and before any
callback invocation.  The guard at line 184 is sampleRate truthy (absent and 0
both fail it) and sampleRate < 1; inside it, the message is annotated when the
draw is strictly below the rate and dropped otherwise. -/
def send (pfx sfx stat : String) (value : ℚ) (ty : String)
    (sampleRate : Option ℚ) (tags : TagsArg) (draw : ℚ) : Option String :=
  let message := baseMessage pfx stat sfx value ty
  let afterSample : Option String :=
    match sampleRate with
    | some r =>
        if r ≠ 0 ∧ r < 1 then
          if draw < r then some (message ++ "|@" ++ toString r) else none
        else some message
    | none => some message
  afterSample.map (fun m => m ++ tagsSegment tags)

/-- Externally visible effect of one send call (lines 198-206): nothing at all
when the stat was dropped by sampling; otherwise a non-mock client hands the
message to the socket, and a mock client immediately invokes the callback with
(null, 0) when a callback function was supplied. -/
inductive SendEffect where
  | nothing
  | socketWrite (message : String)
  | mockCallbackZero
deriving DecidableEq

/-- Effect of Client.prototype.send for a client with the given mock flag and
with or without a callback function, per lines 184-206. -/
def sendEffect (mock hasCallback : Bool) (pfx sfx stat : String) (value : ℚ)
    (ty : String) (sampleRate : Option ℚ) (tags : TagsArg) (draw : ℚ) : SendEffect :=
  match send pfx sfx stat value ty sampleRate tags draw with
  | none => SendEffect.nothing
  | some m =>
      if mock then
        if hasCallback then SendEffect.mockCallbackZero else SendEffect.nothing
      else SendEffect.socketWrite m

/-- The array branch of sendAll (lines 162-165) dispatches one send per name,
each name paired with its own fresh random draw.  The result lists the messages
actually handed to the transport: a name dropped by the sampling check inside
send contributes nothing here, so the transport never runs its completion
callback for that name. -/
def dispatched (pfx sfx : String) (names : List String) (value : ℚ) (ty : String)
    (sampleRate : Option ℚ) (tags : TagsArg) (draws : List ℚ) : List String :=
  (names.zip draws).filterMap (fun nd => send pfx sfx nd.1 value ty sampleRate tags nd.2)

/-- Completion event delivered by the transport to onSend for one dispatched
name: callback(error, bytes) with either a null error and a byte count, or an
error value. -/
inductive Completion where
  | ok (bytes : ℕ)
  | err (e : String)
deriving DecidableEq

/-- Whether a completion carries a null error. -/
def Completion.isOk : Completion → Bool
  | Completion.ok _ => true
  | Completion.err _ => false

/-- Sum of the byte counts of the successful completions of a list. -/
def bytesSum : List Completion → ℕ
  | [] => 0
  | Completion.ok b :: rest => b + bytesSum rest
  | Completion.err _ :: rest => bytesSum rest

/-- One invocation of the user-supplied callback by sendAll: callback(error)
on the error path at line 153, callback(null, sentBytes) on the success path at
line 158. -/
inductive CbCall where
  | failure (e : String)
  | success (bytes : ℕ)
deriving DecidableEq

/-- The closure state of Client.prototype.sendAll (lines 135-138): the
completion counter, the error latch, and the running byte total. -/
structure FanState where
  completed : ℕ
  calledback : Bool
  sentBytes : ℕ
deriving DecidableEq

/-- Initial closure state of one sendAll invocation (line 135-137). -/
def initFanState : FanState := { completed := 0, calledback := false, sentBytes := 0 }

/-- The shared completion handler onSend (lines 145-160).  It first increments
completed; if the latch is set or no callback function was supplied it returns
without any invocation; an error sets the latch and invokes the callback with
the error; a success adds the bytes to the running total and, exactly when the
incremented counter equals statLen (the length of the original name array),
invokes the callback with (null, sentBytes).  Note the success path does not
set the latch. -/
def onSend (statLen : ℕ) (hasCallback : Bool) (s : FanState) :
    Completion → FanState × Option CbCall
  | c =>
    let s1 : FanState := { s with completed := s.completed + 1 }
    if s1.calledback || !hasCallback then (s1, none)
    else
      match c with
      | Completion.err e => ({ s1 with calledback := true }, some (CbCall.failure e))
      | Completion.ok b =>
          let s2 : FanState := { s1 with sentBytes := s1.sentBytes + b }
          if s2.completed = statLen then (s2, some (CbCall.success s2.sentBytes))
          else (s2, none)

/-- Run onSend over a list of completion events in arrival order, collecting
every callback invocation it performs. -/
def runOnSend (statLen : ℕ) (hasCallback : Bool) :
    FanState → List Completion → FanState × List CbCall
  | s, [] => (s, [])
  | s, c :: rest =>
      let p := onSend statLen hasCallback s c
      let q := runOnSend statLen hasCallback p.1 rest
      (q.1, p.2.toList ++ q.2)

/-- All user-callback invocations produced by the array branch of one sendAll
call (lines 134-169), given the length of the original name array, whether a
callback function was supplied, and the completion events in arrival order. -/
def sendAllCalls (statLen : ℕ) (hasCallback : Bool) (events : List Completion) : List CbCall :=
  (runOnSend statLen hasCallback initFanState events).2

/-- Clients are identified abstractly; a Stat records which client it belongs to. -/
abbrev ClientId := ℕ

/-- The stat argument of the constructors: a single name or an array of names. -/
inductive StatName where
  | one (s : String)
  | many (l : List String)
deriving DecidableEq

/-- The Stat object (lines 52-57): name, value, type and the owning client,
plus the two optional slots filled in by the setters.  Until a setter runs the
corresponding slot holds the prototype method, which send treats exactly like
an absent value (a function is not an array, and its comparison against 1 is
false), so the untouched slots are modelled as none. -/
structure Stat where
  name : StatName
  value : ℚ
  type : String
  client : ClientId
  sampleRate : Option ℚ := none
  tags : Option (List String) := none
deriving DecidableEq

/-- JS defaulting of the form value-or-else-d as used at lines 86 and 95: an
undefined or zero (falsy) value falls back to the default. -/
def jsOrNum (v : Option ℚ) (d : ℚ) : ℚ :=
  match v with
  | some q => if q ≠ 0 then q else d
  | none => d

/-- Client.prototype.increment (lines 85-87): value defaulted by value-or-1,
type c, owned by the receiver. -/
def increment (self : ClientId) (stat : StatName) (value : Option ℚ) : Stat :=
  { name := stat, value := jsOrNum value 1, type := "c", client := self }

/-- Client.prototype.decrement (lines 94-96): the stored value is the JS
expression neg-value-or-neg-1.  The negation is taken first: negating undefined
gives NaN (falsy) and negating 0 gives -0 (falsy), so both fall back to -1. -/
def decrement (self : ClientId) (stat : StatName) (value : Option ℚ) : Stat :=
  { name := stat, value := jsOrNum (value.map (fun q => -q)) (-1), type := "c", client := self }

/-- Client.prototype.timing (lines 76-78).  The source constructs the Stat
with the free identifier named client rather than with this: the owner of the
returned handle is whatever the global binding named client holds, and when no
such global binding exists the call throws a ReferenceError.  The receiver
self is ignored by the construction. -/
def timing (globalClient : Option ClientId) (self : ClientId) (stat : StatName)
    (time : ℚ) : Except String Stat :=
  match globalClient, self with
  | none, _ => Except.error "ReferenceError: client is not defined"
  | some c, _ => Except.ok { name := stat, value := time, type := "ms", client := c }

/-- Client.prototype.gauge (lines 103-105). -/
def gauge (self : ClientId) (stat : StatName) (value : ℚ) : Stat :=
  { name := stat, value := value, type := "g", client := self }

/-- Client.prototype.set, also exported as unique (lines 112-115). -/
def setStat (self : ClientId) (stat : StatName) (value : ℚ) : Stat :=
  { name := stat, value := value, type := "s", client := self }

/-- Client.prototype.histogram (lines 122-124). -/
def histogram (self : ClientId) (stat : StatName) (value : ℚ) : Stat :=
  { name := stat, value := value, type := "h", client := self }

/-- Stat.prototype.sampleRate of the repository module (lines 59-61): stores
the rate in the sampleRate slot, shadowing the method, and has no return
statement.  The first component is the mutated handle, the second is the JS
return value of the call: none, that is undefined, never the handle. -/
def setSampleRate (h : Stat) (rate : ℚ) : Stat × Option Stat :=
  ({ h with sampleRate := some rate }, none)

/-- Stat.prototype.tags of the repository module (lines 63-65): stores the tag
list and has no return statement, so the call evaluates to undefined. -/
def setTags (h : Stat) (tags : List String) : Stat × Option Stat :=
  ({ h with tags := some tags }, none)

/-- Stat.prototype.sampleRate of the companion module bundled with the source
(lines 227-230 of the combined file), which ends with return this: the call
evaluates to the mutated handle itself. -/
def setSampleRateChained (h : Stat) (rate : ℚ) : Stat × Option Stat :=
  let h1 : Stat := { h with sampleRate := some rate }
  (h1, some h1)

/-- Stat.prototype.tags of the companion module (lines 237-240), which ends
with return this. -/
def setTagsChained (h : Stat) (tags : List String) : Stat × Option Stat :=
  let h1 : Stat := { h with tags := some tags }
  (h1, some h1)

/-- Stat.prototype.send (lines 67-69) invokes this.client.sendAll with the
full field set of the handle; this function records the target client and the
argument tuple of that delegation. -/
def statSendArgs (h : Stat) : ClientId × StatName × ℚ × String × Option ℚ × Option (List String) :=
  (h.client, h.name, h.value, h.type, h.sampleRate, h.tags)

end Statsd

namespace Statsd

theorem runOnSend_cons (statLen : ℕ) (hc : Bool) (s : FanState) (c : Completion)
    (rest : List Completion) :
    runOnSend statLen hc s (c :: rest) =
      ((runOnSend statLen hc (onSend statLen hc s c).1 rest).1,
       (onSend statLen hc s c).2.toList ++ (runOnSend statLen hc (onSend statLen hc s c).1 rest).2) := rfl

theorem onSend_latched (statLen : ℕ) (hc : Bool) (s : FanState) (c : Completion)
    (h : s.calledback = true) :
    onSend statLen hc s c = ({ s with completed := s.completed + 1 }, none) := by
  simp [onSend, h]

theorem onSend_err (statLen : ℕ) (s : FanState) (e : String) (h : s.calledback = false) :
    onSend statLen true s (Completion.err e) =
      ({ s with completed := s.completed + 1, calledback := true }, some (CbCall.failure e)) := by
  simp [onSend, h]

theorem onSend_ok_mid (statLen : ℕ) (s : FanState) (b : ℕ) (h : s.calledback = false)
    (hne : s.completed + 1 ≠ statLen) :
    onSend statLen true s (Completion.ok b) =
      ({ s with completed := s.completed + 1, sentBytes := s.sentBytes + b }, none) := by
  simp [onSend, h, hne]

theorem onSend_ok_last (statLen : ℕ) (s : FanState) (b : ℕ) (h : s.calledback = false)
    (heq : s.completed + 1 = statLen) :
    onSend statLen true s (Completion.ok b) =
      ({ s with completed := s.completed + 1, sentBytes := s.sentBytes + b },
        some (CbCall.success (s.sentBytes + b))) := by
  simp [onSend, h, heq]

theorem runOnSend_latched (statLen : ℕ) (hc : Bool) (events : List Completion)
    (s : FanState) (h : s.calledback = true) :
    (runOnSend statLen hc s events).2 = [] := by
  induction events generalizing s with
  | nil => rfl
  | cons c rest ih =>
      rw [runOnSend_cons, onSend_latched statLen hc s c h]
      simpa using ih { s with completed := s.completed + 1 } h

theorem runOnSend_ok_below (statLen : ℕ) (events : List Completion) (s : FanState)
    (hok : ∀ c ∈ events, c.isOk = true)
    (hcb : s.calledback = false)
    (hlt : s.completed + events.length < statLen) :
    runOnSend statLen true s events =
      ({ s with completed := s.completed + events.length,
                sentBytes := s.sentBytes + bytesSum events }, []) := by
  induction events generalizing s with
  | nil => simp [runOnSend, bytesSum]
  | cons c rest ih =>
      cases c with
      | err e =>
          have := hok (Completion.err e) (by simp)
          simp [Completion.isOk] at this
      | ok b =>
          have hlt1 : s.completed + 1 + rest.length < statLen := by
            simp only [List.length_cons] at hlt; omega
          have hne : s.completed + 1 ≠ statLen := by omega
          have hoktail : ∀ x ∈ rest, x.isOk = true :=
            fun x hx => hok x (List.mem_cons_of_mem _ hx)
          rw [runOnSend_cons, onSend_ok_mid statLen s b hcb hne]
          rw [ih { s with completed := s.completed + 1, sentBytes := s.sentBytes + b }
            hoktail hcb hlt1]
          simp [bytesSum, FanState.mk.injEq]
          constructor
          · omega
          · omega

end Statsd

namespace Statsd

theorem runOnSend_append (statLen : ℕ) (hc : Bool) (l1 l2 : List Completion) (s : FanState) :
    runOnSend statLen hc s (l1 ++ l2) =
      ((runOnSend statLen hc (runOnSend statLen hc s l1).1 l2).1,
       (runOnSend statLen hc s l1).2 ++ (runOnSend statLen hc (runOnSend statLen hc s l1).1 l2).2) := by
  induction l1 generalizing s with
  | nil => simp [runOnSend]
  | cons c rest ih =>
      rw [List.cons_append, runOnSend_cons, runOnSend_cons, ih]
      simp [List.append_assoc]

theorem runOnSend_ok_reach (statLen : ℕ) (events : List Completion) (s : FanState)
    (hok : ∀ c ∈ events, c.isOk = true)
    (hcb : s.calledback = false)
    (hne : events ≠ [])
    (heq : s.completed + events.length = statLen) :
    (runOnSend statLen true s events).2 = [CbCall.success (s.sentBytes + bytesSum events)] := by
  induction events generalizing s with
  | nil => cases hne rfl
  | cons c rest ih =>
      cases c with
      | err e =>
          have := hok (Completion.err e) (List.mem_cons_self _ _)
          simp [Completion.isOk] at this
      | ok b =>
          have hoktail : ∀ x ∈ rest, x.isOk = true :=
            fun x hx => hok x (List.mem_cons_of_mem _ hx)
          cases rest with
          | nil =>
              have hlast : s.completed + 1 = statLen := by
                simpa using heq
              rw [runOnSend_cons, onSend_ok_last statLen s b hcb hlast]
              simp [runOnSend, bytesSum]
          | cons d rest2 =>
              have hne2 : s.completed + 1 ≠ statLen := by
                simp only [List.length_cons] at heq; omega
              have heq2 : s.completed + 1 + (d :: rest2).length = statLen := by
                simp only [List.length_cons] at heq ⊢; omega
              rw [runOnSend_cons, onSend_ok_mid statLen s b hcb hne2]
              have := ih { s with completed := s.completed + 1, sentBytes := s.sentBytes + b }
                hoktail hcb (by simp) heq2
              simp only [this, bytesSum]
              simp [Nat.add_assoc]

theorem runOnSend_no_success (statLen : ℕ) (events : List Completion) (s : FanState)
    (hlt : s.completed + events.length < statLen) (b : ℕ) :
    CbCall.success b ∉ (runOnSend statLen true s events).2 := by
  induction events generalizing s with
  | nil => simp [runOnSend]
  | cons c rest ih =>
      have hlt1 : s.completed + 1 + rest.length < statLen := by
        simp only [List.length_cons] at hlt; omega
      by_cases hcb : s.calledback = true
      · rw [runOnSend_cons, onSend_latched statLen true s c hcb]
        simpa using ih { s with completed := s.completed + 1 } hlt1
      · have hcb' : s.calledback = false := by simpa using hcb
        cases c with
        | err e =>
            rw [runOnSend_cons, onSend_err statLen s e hcb']
            simpa using ih { s with completed := s.completed + 1, calledback := true } hlt1
        | ok bb =>
            have hne : s.completed + 1 ≠ statLen := by omega
            rw [runOnSend_cons, onSend_ok_mid statLen s bb hcb' hne]
            simpa using ih { s with completed := s.completed + 1, sentBytes := s.sentBytes + bb } hlt1

end Statsd

namespace Statsd

/-- C2: in a fan-out sendAll over statLen names with a supplied callback, the
first error among the completions invokes the callback exactly once with that
error, and every later completion, success or error, is swallowed: the full
call list of the batch is exactly the one failure invocation, and in
particular no success invocation ever follows the latched error. -/
theorem sendAll_first_error_latches (statLen : ℕ) (pre post : List Completion) (e : String)
    (hok : ∀ c ∈ pre, c.isOk = true)
    (hlen : (pre ++ Completion.err e :: post).length ≤ statLen) :
    sendAllCalls statLen true (pre ++ Completion.err e :: post) = [CbCall.failure e] := by
  have hpre : initFanState.completed + pre.length < statLen := by
    simp only [List.length_append, List.length_cons] at hlen
    simp only [initFanState]
    omega
  unfold sendAllCalls
  rw [runOnSend_append, runOnSend_ok_below statLen pre initFanState hok rfl hpre]
  rw [runOnSend_cons,
    onSend_err statLen { initFanState with
      completed := initFanState.completed + pre.length,
      sentBytes := initFanState.sentBytes + bytesSum pre } e rfl]
  rw [runOnSend_latched statLen true post _ rfl]
  simp

/-- C2 witness: names a, b, c where the second completion is the error and the
first and third succeed with 3 bytes each; the only callback invocation is the
failure with that error. -/
theorem sendAll_first_error_latches_witness :
    sendAllCalls 3 true [Completion.ok 3, Completion.err "boom", Completion.ok 3]
      = [CbCall.failure "boom"] :=
  sendAll_first_error_latches 3 [Completion.ok 3] [Completion.ok 3] "boom"
    (by decide) (by decide)

end Statsd

namespace Statsd

/-- C3 (amended): in a fan-out sendAll over statLen names, statLen at least 1,
with a supplied callback, if every name completes successfully then the
callback is invoked exactly once with null error and the sum of the reported
byte counts, and the invocation happens exactly at the statLen-th completion:
every proper prefix of the completions produces no invocation at all. -/
theorem sendAll_success_aggregation (statLen : ℕ) (events : List Completion)
    (hpos : 1 ≤ statLen)
    (hlen : events.length = statLen)
    (hok : ∀ c ∈ events, c.isOk = true) :
    sendAllCalls statLen true events = [CbCall.success (bytesSum events)] ∧
    ∀ k, k < statLen → sendAllCalls statLen true (List.take k events) = [] := by
  constructor
  · have hne : events ≠ [] := by
      intro h
      rw [h] at hlen
      simp at hlen
      omega
    have := runOnSend_ok_reach statLen events initFanState hok rfl hne
      (by simp [initFanState, hlen])
    simpa [sendAllCalls, initFanState] using this
  · intro k hk
    have hoktake : ∀ c ∈ List.take k events, c.isOk = true :=
      fun c hc => hok c (List.mem_of_mem_take hc)
    have hlttake : initFanState.completed + (List.take k events).length < statLen := by
      simp only [initFanState, List.length_take]
      omega
    unfold sendAllCalls
    rw [runOnSend_ok_below statLen (List.take k events) initFanState hoktake rfl hlttake]

/-- C3 witness: three names completing successfully with 3 bytes each produce
exactly one invocation, with 9 bytes. -/
theorem sendAll_success_aggregation_witness :
    sendAllCalls 3 true [Completion.ok 3, Completion.ok 3, Completion.ok 3]
      = [CbCall.success 9] := by
  have h := (sendAll_success_aggregation 3
    [Completion.ok 3, Completion.ok 3, Completion.ok 3]
    (by decide) (by decide) (by decide)).1
  simpa [bytesSum] using h

/-- C3 counterexample: for the empty name array the claim as stated requires
one success invocation with the total 0, but sendAll dispatches nothing, the
handler never runs, and the callback is never invoked. -/
theorem sendAll_empty_batch_silent :
    sendAllCalls 0 true [] = [] ∧
    sendAllCalls 0 true [] ≠ [CbCall.success (bytesSum [])] := by
  decide

/-- C4: if some names of the batch are dropped by the sampling decision (the
transport dispatch list is shorter than the name list) then, the dropped names
never delivering a completion, the completions can never reach the length of
the name list, and no success invocation is ever produced for the batch,
whatever mixture of successes and errors the dispatched sends deliver. -/
theorem sendAll_dropped_batch_no_success (pfx sfx : String) (names : List String)
    (value : ℚ) (ty : String) (sampleRate : Option ℚ) (tags : TagsArg)
    (draws : List ℚ) (events : List Completion) (b : ℕ)
    (hdrop : (dispatched pfx sfx names value ty sampleRate tags draws).length < names.length)
    (hevents : events.length ≤ (dispatched pfx sfx names value ty sampleRate tags draws).length) :
    CbCall.success b ∉ sendAllCalls names.length true events := by
  have h : initFanState.completed + events.length < names.length := by
    simp only [initFanState]
    omega
  exact runOnSend_no_success names.length events initFanState h b

/-- C4 witness: two names with sample rate one half and draws of three
quarters are both dropped, so no send is dispatched, no completion ever
arrives, and no success invocation is produced. -/
theorem sendAll_dropped_batch_no_success_witness :
    CbCall.success 0 ∉ sendAllCalls 2 true [] :=
  sendAll_dropped_batch_no_success "" "" ["a", "b"] 1 "c" (some (mkRat 1 2))
    TagsArg.undef [mkRat 3 4, mkRat 3 4] [] 0 (by decide) (by decide)

end Statsd

namespace Statsd

/-- C1 (amended): sampling behaviour of send.  With an absent sample rate, a
rate of at least 1, or a rate of exactly 0 (falsy, so the guard is skipped),
the message is always emitted and carries no annotation.  With a nonzero rate
below 1 the message is emitted if and only if the fresh uniform draw is
strictly below the rate, and an emitted message then carries the rate
annotation.  A dropped send produces no effect at all: nothing reaches the
socket and the callback is not invoked. -/
theorem send_sampling (pfx sfx stat : String) (value : ℚ) (ty : String)
    (tags : TagsArg) (draw : ℚ) (r : ℚ) :
    send pfx sfx stat value ty none tags draw
        = some (baseMessage pfx stat sfx value ty ++ tagsSegment tags) ∧
    (1 ≤ r → send pfx sfx stat value ty (some r) tags draw
        = some (baseMessage pfx stat sfx value ty ++ tagsSegment tags)) ∧
    send pfx sfx stat value ty (some 0) tags draw
        = some (baseMessage pfx stat sfx value ty ++ tagsSegment tags) ∧
    (r ≠ 0 → r < 1 → draw < r → send pfx sfx stat value ty (some r) tags draw
        = some (baseMessage pfx stat sfx value ty ++ "|@" ++ toString r ++ tagsSegment tags)) ∧
    (r ≠ 0 → r < 1 → ¬ draw < r → send pfx sfx stat value ty (some r) tags draw = none) ∧
    (∀ mock hasCallback : Bool, send pfx sfx stat value ty (some r) tags draw = none →
      sendEffect mock hasCallback pfx sfx stat value ty (some r) tags draw = SendEffect.nothing) := by
  refine ⟨?_, ?_, ?_, ?_, ?_, ?_⟩
  · simp [send]
  · intro hr
    have hno : ¬ (r ≠ 0 ∧ r < 1) := by
      rintro ⟨-, h2⟩
      exact absurd h2 (not_lt.mpr hr)
    simp [send, hno]
  · simp [send]
  · intro h0 h1 hd
    simp [send, h0, h1, hd]
  · intro h0 h1 hd
    simp [send, h0, h1, hd]
  · intro mock hasCallback h
    simp [sendEffect, h]

/-- C1 witness: rate one half, draw one quarter below it, so the stat is
emitted and annotated with the rate. -/
theorem send_sampling_witness :
    send "" "" "a" 1 "c" (some (mkRat 1 2)) TagsArg.undef (mkRat 1 4)
      = some (baseMessage "" "a" "" 1 "c" ++ "|@" ++ toString (mkRat 1 2)
          ++ tagsSegment TagsArg.undef) :=
  (send_sampling "" "" "a" 1 "c" TagsArg.undef (mkRat 1 4) (mkRat 1 2)).2.2.2.1
    (by decide) (by decide) (by decide)

/-- C1 counterexample: the claim says a sample rate of 0 always drops the
stat; in the code 0 is falsy, the guard at line 184 is skipped and the stat is
always emitted, without annotation. -/
theorem send_rate_zero_emits :
    send "" "" "a" 1 "c" (some 0) TagsArg.undef 0 = some "a:1|c" ∧
    send "" "" "a" 1 "c" (some 0) TagsArg.undef 0 ≠ none := by
  decide

/-- C5 (amended): every emitted wire message is exactly the concatenation of
prefix, name, suffix, colon, value, bar, type, then the sample annotation
exactly when the sample rate is present, nonzero and below 1, then the tag
segment, in that order, with absent optional fields contributing nothing. -/
theorem send_message_shape (pfx sfx stat : String) (value : ℚ) (ty : String)
    (sampleRate : Option ℚ) (tags : TagsArg) (draw : ℚ) (m : String)
    (h : send pfx sfx stat value ty sampleRate tags draw = some m) :
    m = baseMessage pfx stat sfx value ty ++ sampleSegment sampleRate ++ tagsSegment tags := by
  cases sampleRate with
  | none =>
      simp only [send, Option.map, Option.some.injEq] at h
      subst h
      simp [sampleSegment, String.append_empty]
  | some r =>
      simp only [send] at h
      by_cases hc : r ≠ 0 ∧ r < 1
      · rw [if_pos hc] at h
        by_cases hd : draw < r
        · rw [if_pos hd] at h
          injection h with h
          subst h
          simp only [sampleSegment]
          rw [if_pos hc]
          simp [String.append_assoc]
        · rw [if_neg hd] at h
          simp at h
      · rw [if_neg hc] at h
        injection h with h
        subst h
        simp only [sampleSegment]
        rw [if_neg hc]
        simp [String.append_empty]

/-- C5 witness: the scenario from the spec, prefix app., one tag, no sampling:
the emitted message app.x:1|c|#env:prod is exactly the concatenation. -/
theorem send_message_shape_witness :
    "app.x:1|c|#env:prod"
      = baseMessage "app." "x" "" 1 "c" ++ sampleSegment none
          ++ tagsSegment (TagsArg.arr ["env:prod"]) :=
  send_message_shape "app." "" "x" 1 "c" none (TagsArg.arr ["env:prod"]) 0
    "app.x:1|c|#env:prod" (by decide)

/-- C5 counterexample: with sample rate 0, which is present and below 1, the
claim requires the emitted message to carry the annotation, but the code skips
the falsy guard and emits the plain message. -/
theorem send_rate_zero_unannotated :
    send "" "" "a" 1 "c" (some 0) TagsArg.undef 0 = some "a:1|c" ∧
    "a:1|c" ≠ baseMessage "" "a" "" 1 "c" ++ "|@" ++ toString (0 : ℚ)
        ++ tagsSegment TagsArg.undef := by
  decide

end Statsd

namespace Statsd

/-- C6 (amended): tag serialization of send.  A tags argument that is an array
(empty included) makes every emitted message end with the tag marker followed
by the elements joined by commas, relative to the same send without tags; a
tags argument that is absent or not an array leaves the message exactly as the
tagless send, with no tag segment at all. -/
theorem send_tags_serialization (pfx sfx stat : String) (value : ℚ) (ty : String)
    (sampleRate : Option ℚ) (draw : ℚ) (l : List String) (b : Bool) :
    send pfx sfx stat value ty sampleRate (TagsArg.arr l) draw
      = Option.map (fun m => m ++ ("|#" ++ String.intercalate "," l))
          (send pfx sfx stat value ty sampleRate TagsArg.undef draw) ∧
    send pfx sfx stat value ty sampleRate (TagsArg.nonArray b) draw
      = send pfx sfx stat value ty sampleRate TagsArg.undef draw := by
  constructor
  · simp only [send, tagsSegment, Option.map_map]
    congr 1
    funext m
    simp [Function.comp, String.append_empty, String.append_assoc]
  · simp only [send, tagsSegment]

/-- C6 counterexample: the claim says an empty tag list emits no tag segment
at all, but the code only tests that the value is an array, so an empty array
appends a dangling tag marker with an empty join. -/
theorem send_empty_tags_marker :
    send "" "" "a" 1 "c" none (TagsArg.arr []) 0 = some "a:1|c|#" ∧
    send "" "" "a" 1 "c" none (TagsArg.arr []) 0
      ≠ send "" "" "a" 1 "c" none TagsArg.undef 0 := by
  decide

/-- C7 (code bug): Client.prototype.timing builds the Stat from the free
identifier named client instead of the receiver.  With a global client bound
to a different instance, the returned handle is owned by that other instance,
so its send delegates to the sendAll of the wrong client; with no global
binding the call fails with a ReferenceError instead of returning a handle. -/
theorem timing_owner_bug :
    timing (some 1) 0 (StatName.one "response_time") 42
      = Except.ok { name := StatName.one "response_time", value := 42,
                    type := "ms", client := 1 } ∧
    (1 : ClientId) ≠ 0 ∧
    timing none 0 (StatName.one "response_time") 42
      = Except.error "ReferenceError: client is not defined" ∧
    statSendArgs { name := StatName.one "response_time", value := 42,
                   type := "ms", client := 1 }
      = (1, StatName.one "response_time", 42, "ms", none, none) := by
  exact ⟨rfl, by decide, rfl, rfl⟩

/-- C8 (amended): increment with no value stores the delta 1, decrement with
no value stores the delta -1, and decrement with a supplied nonzero value
stores its negation (the supplied value 0 is falsy after negation and is
covered by the defaulting quirk instead). -/
theorem counter_value_defaults (self : ClientId) (nm : StatName) (v : ℚ) (hv : v ≠ 0) :
    (increment self nm none).value = 1 ∧
    (decrement self nm none).value = -1 ∧
    (decrement self nm (some v)).value = -v := by
  refine ⟨rfl, rfl, ?_⟩
  simp [decrement, jsOrNum, hv]

/-- C8 witness: decrement with the value 5 stores the delta -5. -/
theorem counter_value_defaults_witness :
    (decrement 0 (StatName.one "x") (some 5)).value = -5 :=
  (counter_value_defaults 0 (StatName.one "x") 5 (by decide)).2.2

/-- C8 counterexample: decrement with the supplied value 0 stores -1, not the
negation of 0: the negation -0 is falsy and falls back to the default. -/
theorem decrement_zero_stores_default :
    (decrement 0 (StatName.one "x") (some 0)).value = -1 ∧
    (decrement 0 (StatName.one "x") (some 0)).value ≠ -(0 : ℚ) := by
  decide

/-- C9 (code bug): in the repository module the Stat setters store the field
but have no return statement, so each call evaluates to undefined and the
documented chain stat.sampleRate(v).tags(l) throws; the companion module
bundled with the source returns the handle itself, which is the documented
behaviour the claim describes. -/
theorem setters_return_undefined :
    (setSampleRate (increment 0 (StatName.one "x") none) (mkRat 1 4)).1.sampleRate
      = some (mkRat 1 4) ∧
    (setSampleRate (increment 0 (StatName.one "x") none) (mkRat 1 4)).2 = none ∧
    (setTags (increment 0 (StatName.one "x") none) ["env:prod"]).1.tags
      = some ["env:prod"] ∧
    (setTags (increment 0 (StatName.one "x") none) ["env:prod"]).2 = none ∧
    (setSampleRateChained (increment 0 (StatName.one "x") none) (mkRat 1 4)).2
      = some (setSampleRateChained (increment 0 (StatName.one "x") none) (mkRat 1 4)).1 ∧
    (setTagsChained (increment 0 (StatName.one "x") none) ["env:prod"]).2
      = some (setTagsChained (increment 0 (StatName.one "x") none) ["env:prod"]).1 := by
  exact ⟨rfl, rfl, rfl, rfl, rfl, rfl⟩

/-- C10: a supplied value of 0 is falsy, so increment with 0 stores the
default 1 and decrement with 0 stores the default -1; more generally no
argument at all makes increment or decrement store a zero delta. -/
theorem zero_delta_unreachable (self : ClientId) (nm : StatName) (v : Option ℚ) :
    (increment self nm (some 0)).value = 1 ∧
    (decrement self nm (some 0)).value = -1 ∧
    (increment self nm v).value ≠ 0 ∧
    (decrement self nm v).value ≠ 0 := by
  refine ⟨rfl, rfl, ?_, ?_⟩
  · cases v with
    | none => simp [increment, jsOrNum]
    | some q =>
        simp only [increment, jsOrNum]
        split_ifs with h
        · exact h
        · simp
  · cases v with
    | none => simp [decrement, jsOrNum]
    | some q =>
        simp only [decrement, jsOrNum, Option.map]
        split_ifs with h
        · exact h
        · simp

end Statsd
